import Mathlib

/-!
# Rule-tree validation and request building of the PAPI / AppSec client

Shallow embedding of `pkg/papi/rule.go` and `pkg/appsec/contracts_groups.go`.

Conventions of the embedding:

* a Go `error` is an `Option`: `none` is the nil error;
* a Go slice or map is a `List`; the nil slice/map and the empty one are both `[]`
  (every check in the embedded code only looks at their length and elements);
* a `validation.Errors` map is an association list whose keys are pairwise distinct, written
  in the order in which the source lists (or inserts) the keys;
* Go `int` fields are `Int`.
-/

namespace Papi

/-! ## The part of `ozzo-validation` used by `rule.go` -/

/-- An error value produced by validation: either the failure of one rule (carrying the
message of that rule) or a `validation.Errors` map from keys to errors. -/
inductive VError where
  | rule (message : String) : VError
  | errors (entries : List (String × VError)) : VError

/-- The error `validation.ErrRequired`, returned by the rule `validation.Required`. -/
def ErrRequired : VError := .rule "cannot be blank"

/-- The error `validation.ErrInInvalid`, returned by the rule `validation.In`. -/
def ErrInInvalid : VError := .rule "must be a valid value"

/-- The first loop of `Errors.Filter`: the entries whose error is nil are deleted. -/
def Errors.kept (es : List (String × Option VError)) : List (String × VError) :=
  es.filterMap (fun kv => kv.2.map (fun e => (kv.1, e)))

/-- The method `Errors.Filter`: the entries whose error is nil are deleted, and the result is
the nil error when nothing is left. -/
def Errors.Filter (es : List (String × Option VError)) : Option VError :=
  match Errors.kept es with
  | [] => none
  | kept => some (.errors kept)

/-- The rule `validation.Required` on a string: `IsEmpty` is `len == 0`. -/
def requiredString (s : String) : Option VError :=
  if s = "" then some ErrRequired else none

/-- The rule `validation.Required` on an `int`: `IsEmpty` is `== 0`. -/
def requiredInt (n : Int) : Option VError :=
  if n = 0 then some ErrRequired else none

/-- The rule `validation.Required` on a slice or a map: nil or of length zero is empty. -/
def requiredLen {α : Type} (xs : List α) : Option VError :=
  if xs.length = 0 then some ErrRequired else none

/-- The rule `validation.In(elements...)` on a string: an empty value is accepted without
looking at the elements, any other value has to be equal to one of them. -/
def inRule (elements : List String) (value : String) : Option VError :=
  if value = "" then none
  else if elements.any (fun e => e == value) then none
  else some ErrInInvalid

/-- The decimal rendering `strconv.Itoa` of a slice index. -/
def Itoa (i : Nat) : String := Nat.repr i

/-- The loop of `validateSlice`, started at index `i`: every element whose own `Validate`
fails puts its error under the key `strconv.Itoa(i)`. -/
def sliceErrorsFrom {α : Type} (validate : α → Option VError) :
    Nat → List α → List (String × VError)
  | _, [] => []
  | i, x :: xs =>
    match validate x with
    | some e => (Itoa i, e) :: sliceErrorsFrom validate (i + 1) xs
    | none => sliceErrorsFrom validate (i + 1) xs

/-- The function `validateSlice`: the collected map when it is non-empty, the nil error
otherwise. -/
def validateSlice {α : Type} (validate : α → Option VError) (xs : List α) : Option VError :=
  match sliceErrorsFrom validate 0 xs with
  | [] => none
  | errs => some (.errors errs)

/-! ## Data model of `rule.go` -/

/-- A value stored in `RuleBehavior.Options` (`map[string]interface{}`): the decoded JSON
value. Validation never looks inside. -/
inductive OptionValue where
  | null : OptionValue
  | bool (b : Bool) : OptionValue
  | number (literal : String) : OptionValue
  | string (s : String) : OptionValue
  | array (items : List OptionValue) : OptionValue
  | object (fields : List (String × OptionValue)) : OptionValue

/-- The struct `RuleBehavior`: data for both rule behaviors and rule criteria. -/
structure RuleBehavior where
  Locked : String
  Name : String
  Options : List (String × OptionValue)
  UUID : String

/-- The struct `RuleCustomOverride`. -/
structure RuleCustomOverride where
  Name : String
  OverrideID : String

/-- The struct `RuleOptions`. -/
structure RuleOptions where
  IsSecure : Bool

/-- The struct `RuleVariable`. -/
structure RuleVariable where
  Description : String
  Hidden : Bool
  Name : String
  Sensitive : Bool
  Value : String

/-- The struct `Rules`: one node of the rule tree, with its sub-rules in `Children`. -/
inductive Rules where
  | mk (AdvancedOverride : String) (Behaviors : List RuleBehavior) (Children : List Rules)
      (Comment : String) (Criteria : List RuleBehavior) (CriteriaLocked : Bool)
      (CustomOverride : Option RuleCustomOverride) (Name : String)
      (Options : Option RuleOptions) (UUID : String) (Variables : List RuleVariable) : Rules

namespace Rules

/-- Field `Behaviors`. -/
def Behaviors : Rules → List RuleBehavior
  | mk _ bs _ _ _ _ _ _ _ _ _ => bs

/-- Field `Children`. -/
def Children : Rules → List Rules
  | mk _ _ cs _ _ _ _ _ _ _ _ => cs

/-- Field `Criteria`. -/
def Criteria : Rules → List RuleBehavior
  | mk _ _ _ _ cr _ _ _ _ _ _ => cr

/-- Field `CustomOverride` (a pointer: `none` is nil). -/
def CustomOverride : Rules → Option RuleCustomOverride
  | mk _ _ _ _ _ _ co _ _ _ _ => co

/-- Field `Name`. -/
def Name : Rules → String
  | mk _ _ _ _ _ _ _ n _ _ _ => n

/-- Field `Variables`. -/
def Variables : Rules → List RuleVariable
  | mk _ _ _ _ _ _ _ _ _ _ vs => vs

end Rules

/-! ## The `Validate` methods of `rule.go` -/

/-- The method `RuleBehavior.Validate`. The options map has element type `interface{}`, so
after `Required` nothing inside the map is validated. -/
def RuleBehavior.Validate (b : RuleBehavior) : Option VError :=
  Errors.Filter [
    ("Name", requiredString b.Name),
    ("Options", requiredLen b.Options)]

/-- The method `RuleCustomOverride.Validate`. -/
def RuleCustomOverride.Validate (co : RuleCustomOverride) : Option VError :=
  Errors.Filter [
    ("Name", requiredString co.Name),
    ("OverrideID", requiredString co.OverrideID)]

/-- The method `RuleVariable.Validate`. -/
def RuleVariable.Validate (v : RuleVariable) : Option VError :=
  Errors.Filter [
    ("Name", requiredString v.Name)]

/-- The call `validation.Validate(r.Behaviors, validation.Required)`: the rule first, and when
it passes the slice of validatable elements is validated element by element. -/
def validateBehaviorsRequired (bs : List RuleBehavior) : Option VError :=
  match requiredLen bs with
  | some e => some e
  | none => validateSlice RuleBehavior.Validate bs

/-- The call `validation.Validate(r.CustomOverride)` on a pointer: nil is valid, anything
else is validated through its `Validate` method. -/
def validateCustomOverride (co : Option RuleCustomOverride) : Option VError :=
  match co with
  | none => none
  | some c => c.Validate

mutual
/-- The method `Rules.Validate`. -/
def Rules.Validate : Rules → Option VError
  | .mk _ behaviors children _ criteria _ customOverride name _ _ vars =>
    Errors.Filter [
      ("Behaviors", validateBehaviorsRequired behaviors),
      ("Name", requiredString name),
      ("CustomOverride", validateCustomOverride customOverride),
      ("Criteria", validateSlice RuleBehavior.Validate criteria),
      ("Children",
        match Rules.childErrorsFrom 0 children with
        | [] => none
        | errs => some (.errors errs)),
      ("Variables", validateSlice RuleVariable.Validate vars)]
/-- The loop of `validateSlice` on a `[]Rules`, started at index `i`. -/
def Rules.childErrorsFrom : Nat → List Rules → List (String × VError)
  | _, [] => []
  | i, c :: cs =>
    match Rules.Validate c with
    | some e => (Itoa i, e) :: Rules.childErrorsFrom (i + 1) cs
    | none => Rules.childErrorsFrom (i + 1) cs
end

/-! ## Requests and responses of `rule.go` -/

/-- The struct `GetRuleTreeRequest`: path and query params of the GET /rules request. -/
structure GetRuleTreeRequest where
  PropertyID : String
  PropertyVersion : Int
  ContractID : String
  GroupID : String
  ValidateMode : String
  ValidateRules : Bool

/-- The struct `GetRuleTreeResponse`. -/
structure GetRuleTreeResponse where
  AccountID : String
  ContractID : String
  GroupID : String
  PropertyID : String
  PropertyVersion : Int
  Etag : String
  RuleFormat : String
  Rules : Rules

/-- The struct `UpdateRulesRequest`: path and query params and the body of the PUT /rules
request. -/
structure UpdateRulesRequest where
  PropertyID : String
  PropertyVersion : Int
  ContractID : String
  DryRun : Bool
  GroupID : String
  ValidateMode : String
  ValidateRules : Bool
  Rules : Rules

/-- The struct `RuleError`: an entry of the error field of the PUT /rules response. -/
structure RuleError where
  «Type» : String
  Title : String
  Detail : String
  Instance : String
  BehaviorName : String

/-- The struct `UpdateRulesResponse`. -/
structure UpdateRulesResponse where
  AccountID : String
  ContractID : String
  GroupID : String
  PropertyID : String
  PropertyVersion : Int
  Etag : String
  RuleFormat : String
  Rules : Rules
  Errors : List RuleError

/-- The constant `RuleValidateModeFast`. -/
def RuleValidateModeFast : String := "fast"

/-- The constant `RuleValidateModeFull`. -/
def RuleValidateModeFull : String := "full"

/-- The method `GetRuleTreeRequest.Validate`. -/
def GetRuleTreeRequest.Validate (r : GetRuleTreeRequest) : Option VError :=
  Errors.Filter [
    ("PropertyID", requiredString r.PropertyID),
    ("PropertyVersion", requiredInt r.PropertyVersion),
    ("ValidateMode", inRule [RuleValidateModeFast, RuleValidateModeFull] r.ValidateMode)]

/-- The method `UpdateRulesRequest.Validate`. The call `validation.Validate(r.Rules)` has no
rule and runs the `Validate` method of the tree. -/
def UpdateRulesRequest.Validate (r : UpdateRulesRequest) : Option VError :=
  Errors.Filter [
    ("PropertyID", requiredString r.PropertyID),
    ("PropertyVersion", requiredInt r.PropertyVersion),
    ("ValidateMode", inRule [RuleValidateModeFast, RuleValidateModeFull] r.ValidateMode),
    ("Rules", r.Rules.Validate)]

end Papi

/-! ## The transport session

The session (`pkg/session`) and `net/http` are collaborators of the embedded files. They are
parameters of the model: a session says which request lines `http.NewRequestWithContext`
accepts and what `Exec` answers to a request. Every operation returns, next to its Go result,
the list of the exchanges it handed to `Exec`, so that "no network call" is the statement that
this list is empty. Logging is not modelled. -/

namespace Session

/-- The part of `http.Request` the operations set: method, URL and headers. `Header` lists the
calls of `Header.Set` in order, each key as the source writes it. -/
structure HttpRequest where
  Method : String
  URL : String
  Header : List (String × String)

/-- The part of `http.Response` the operations read (the status code) and the payload. -/
structure HttpResponse where
  StatusCode : Int
  Body : String

/-- One call of `Exec`: the request and the values passed as its body (`in ...interface{}`). -/
structure Exchange (Body : Type) where
  request : HttpRequest
  body : List Body

/-- The transport: `newRequestOK method url` tells whether `http.NewRequestWithContext`
builds a request (it fails when the URL cannot be parsed); `Exec` either fails with the text of
a transport error or returns the response together with the value left in the output
argument. -/
structure Transport (Body Out : Type) where
  newRequestOK : String → String → Bool
  Exec : Exchange Body → Except String (HttpResponse × Out)

/-- What an operation did and returned: the exchanges handed to `Exec`, in order, and the Go
result pair (`(nil, err)` is `Except.error err`, `(&out, nil)` is `Except.ok out`). -/
structure Outcome (Body Err Out : Type) where
  calls : List (Exchange Body)
  result : Except Err Out

/-- The verb `%t` of `fmt.Sprintf`, also `cast.ToString` on a bool. -/
def fmtBool (b : Bool) : String := if b then "true" else "false"

/-- The verb `%d` of `fmt.Sprintf` on an `int`: decimal, with a minus sign when negative. -/
def fmtInt (n : Int) : String :=
  match n with
  | Int.ofNat m => Nat.repr m
  | Int.negSucc m => "-" ++ Nat.repr (m + 1)

end Session

namespace Papi

open Session

/-! ## The operations of `rule.go` -/

/-- The errors `GetRuleTree` and `UpdateRuleTree` return:
* `structValidation report` is `fmt.Errorf("%w: %s", ErrStructValidation, err.Error())`, with
  the validation error `err` kept as the report;
* `createRequest` is the error wrapping the failure of `http.NewRequestWithContext`;
* `requestFailed cause` is the error wrapping the failure of `Exec`;
* `notFound url` is `fmt.Errorf("%w: %s", session.ErrNotFound, url)`;
* `api resp` is `session.NewAPIError(resp, logger)`, kept as the response it is built from. -/
inductive Error where
  | structValidation (report : VError) : Error
  | createRequest : Error
  | requestFailed (cause : String) : Error
  | notFound (url : String) : Error
  | api (resp : HttpResponse) : Error

/-- The receiver `papi`: the session it embeds and its `usePrefixes` flag. -/
structure papi (Out : Type) where
  transport : Transport Rules Out
  usePrefixes : Bool

/-- The local `getURL` of `GetRuleTree` as it stands when the request is created. -/
def getRuleTreeURL (params : GetRuleTreeRequest) : String :=
  let getURL := "/papi/v1/properties/" ++ params.PropertyID ++ "/versions/" ++
    fmtInt params.PropertyVersion ++ "/rules?contractId=" ++ params.ContractID ++
    "&groupId=" ++ params.GroupID
  let getURL :=
    if params.ValidateMode ≠ "" then getURL ++ ("&validateMode=" ++ params.ValidateMode)
    else getURL
  let getURL :=
    if !params.ValidateRules then getURL ++ ("&validateRules=" ++ fmtBool params.ValidateRules)
    else getURL
  getURL

/-- The method `GetRuleTree`. -/
def GetRuleTree (p : papi GetRuleTreeResponse) (params : GetRuleTreeRequest) :
    Outcome Rules Error GetRuleTreeResponse :=
  match params.Validate with
  | some err => ⟨[], .error (.structValidation err)⟩
  | none =>
    let getURL := getRuleTreeURL params
    if p.transport.newRequestOK "GET" getURL = false then ⟨[], .error .createRequest⟩
    else
      let req : HttpRequest :=
        ⟨"GET", getURL, [("PAPI-Use-Prefixes", fmtBool p.usePrefixes)]⟩
      let call : Exchange Rules := ⟨req, []⟩
      match p.transport.Exec call with
      | .error cause => ⟨[call], .error (.requestFailed cause)⟩
      | .ok (resp, versions) =>
        if resp.StatusCode = 404 then ⟨[call], .error (.notFound getURL)⟩
        else if resp.StatusCode ≠ 200 then ⟨[call], .error (.api resp)⟩
        else ⟨[call], .ok versions⟩

/-- The local `putURL` of `UpdateRuleTree` as it stands when the request is created. -/
def updateRuleTreeURL (request : UpdateRulesRequest) : String :=
  let putURL := "/papi/v1/properties/" ++ request.PropertyID ++ "/versions/" ++
    fmtInt request.PropertyVersion ++ "/rules?contractId=" ++ request.ContractID ++
    "&groupId=" ++ request.GroupID
  let putURL :=
    if request.ValidateMode ≠ "" then putURL ++ ("&validateMode=" ++ request.ValidateMode)
    else putURL
  let putURL :=
    if !request.ValidateRules then putURL ++ ("&validateRules=" ++ fmtBool request.ValidateRules)
    else putURL
  let putURL :=
    if request.DryRun then putURL ++ ("&dryRun=" ++ fmtBool request.DryRun)
    else putURL
  putURL

/-- The method `UpdateRuleTree`. -/
def UpdateRuleTree (p : papi UpdateRulesResponse) (request : UpdateRulesRequest) :
    Outcome Rules Error UpdateRulesResponse :=
  match request.Validate with
  | some err => ⟨[], .error (.structValidation err)⟩
  | none =>
    let putURL := updateRuleTreeURL request
    if p.transport.newRequestOK "PUT" putURL = false then ⟨[], .error .createRequest⟩
    else
      let req : HttpRequest :=
        ⟨"PUT", putURL, [("PAPI-Use-Prefixes", fmtBool p.usePrefixes)]⟩
      let call : Exchange Rules := ⟨req, [request.Rules, request.Rules]⟩
      match p.transport.Exec call with
      | .error cause => ⟨[call], .error (.requestFailed cause)⟩
      | .ok (resp, versions) =>
        if resp.StatusCode ≠ 200 then ⟨[call], .error (.api resp)⟩
        else ⟨[call], .ok versions⟩

end Papi

/-! ## `contracts_groups.go` -/

namespace Appsec

open Session

/-- The struct `GetContractsGroupsRequest`. -/
structure GetContractsGroupsRequest where
  ConfigID : Int
  Version : Int
  PolicyID : String
  ContractID : String
  GroupID : Int

/-- The element type of `GetContractsGroupsResponse.ContractGroups`. -/
structure ContractGroup where
  ContractID : String
  DisplayName : String
  GroupID : Int

/-- The struct `GetContractsGroupsResponse`. -/
structure GetContractsGroupsResponse where
  ContractGroups : List ContractGroup

/-- The errors `GetContractsGroups` returns: the two wrapped failures and `p.Error(resp)`,
kept as the response it is built from. -/
inductive Error where
  | createRequest : Error
  | requestFailed (cause : String) : Error
  | api (resp : HttpResponse) : Error

/-- The receiver `appsec`: the session it embeds. -/
structure appsec where
  transport : Transport Unit GetContractsGroupsResponse

/-- The `for ... range` loop of `GetContractsGroups`: every element that has the contract and
the group of the request is appended to the filtered list built so far. -/
def filterLoop (params : GetContractsGroupsRequest) (filtered : List ContractGroup)
    (vals : List ContractGroup) : List ContractGroup :=
  vals.foldl
    (fun acc val =>
      if val.ContractID = params.ContractID ∧ val.GroupID = params.GroupID then acc ++ [val]
      else acc)
    filtered

/-- The method `GetContractsGroups`. -/
def GetContractsGroups (p : appsec) (params : GetContractsGroupsRequest) :
    Outcome Unit Error GetContractsGroupsResponse :=
  let uri := "/appsec/v1/contracts-groups"
  if p.transport.newRequestOK "GET" uri = false then ⟨[], .error .createRequest⟩
  else
    let call : Exchange Unit := ⟨⟨"GET", uri, []⟩, []⟩
    match p.transport.Exec call with
    | .error cause => ⟨[call], .error (.requestFailed cause)⟩
    | .ok (resp, rval) =>
      if resp.StatusCode ≠ 200 then ⟨[call], .error (.api resp)⟩
      else if params.GroupID ≠ 0 then
        ⟨[call], .ok ⟨filterLoop params [] rval.ContractGroups⟩⟩
      else ⟨[call], .ok rval⟩

end Appsec

/-! ## Vocabulary of the statements -/

namespace Papi

/-- The keys of an error report: those of the `Errors` map, none for the nil error. -/
def reportKeys : Option VError → List String
  | some (.errors es) => es.map Prod.fst
  | _ => []

/-- The entry of an error value under a key: present only in an `Errors` map. -/
def VError.entry (key : String) : VError → Option VError
  | .errors es => es.lookup key
  | .rule _ => none

/-- The entry of an error report at a path of keys. -/
def reportAt : Option VError → List String → Option VError
  | r, [] => r
  | none, _ :: _ => none
  | some e, k :: ks => reportAt (e.entry k) ks

/-- The checks on one behavior or criterion: a name and a non-empty options map. -/
def RuleBehavior.Checks (b : RuleBehavior) : Prop := b.Name ≠ "" ∧ b.Options ≠ []

/-- The check on one variable: a name. -/
def RuleVariable.Checks (v : RuleVariable) : Prop := v.Name ≠ ""

/-- The checks on a custom override: a name and an override id. -/
def RuleCustomOverride.Checks (co : RuleCustomOverride) : Prop :=
  co.Name ≠ "" ∧ co.OverrideID ≠ ""

/-- The checks on one node of the tree, its children left aside. -/
def Rules.NodeChecks (r : Rules) : Prop :=
  r.Name ≠ "" ∧ r.Behaviors ≠ [] ∧ (∀ b ∈ r.Behaviors, b.Checks) ∧
    (∀ c ∈ r.Criteria, c.Checks) ∧ (∀ v ∈ r.Variables, v.Checks) ∧
    (∀ co, r.CustomOverride = some co → co.Checks)

/-- The rules reachable from a rule through `Children`, the rule itself included. -/
inductive Rules.Reachable : Rules → Rules → Prop
  | root (r : Rules) : Rules.Reachable r r
  | child {r c n : Rules} : c ∈ r.Children → Rules.Reachable c n → Rules.Reachable r n

end Papi

/-! ## Sample inputs -/

namespace Papi

/-- A behavior with a name and one option. -/
def sampleBehavior : RuleBehavior := ⟨"", "caching", [("ttl", OptionValue.string "1d")], ""⟩

/-- A behavior with neither a name nor options. -/
def blankBehavior : RuleBehavior := ⟨"", "", [], ""⟩

/-- A rule with the given name, behaviors and children and nothing else. -/
def sampleRule (name : String) (behaviors : List RuleBehavior) (children : List Rules) :
    Rules :=
  .mk "" behaviors children "" [] false none name none "" []

/-- A valid tree: a root with one behavior and no children. -/
def validTree : Rules := sampleRule "default" [sampleBehavior] []

/-- A named root without children whose single behavior is blank. -/
def blankBehaviorTree : Rules := sampleRule "default" [blankBehavior] []

/-- An invalid root (no name, no behaviors) with three children, the second one unnamed. -/
def unnamedChildTree : Rules :=
  sampleRule "" [] [validTree, sampleRule "" [sampleBehavior] [], validTree]

/-- A fetch request with every addressing field set and the given validate mode. -/
def sampleGet (mode : String) : GetRuleTreeRequest :=
  ⟨"prp_1", 3, "ctr_1", "grp_1", mode, false⟩

/-- A submission with every addressing field set, the given validate mode and a valid tree. -/
def sampleUpdate (mode : String) : UpdateRulesRequest :=
  ⟨"prp_1", 3, "ctr_1", true, "grp_1", mode, false, validTree⟩

/-- A fetch request without property id. -/
def noPropertyGet : GetRuleTreeRequest := ⟨"", 3, "ctr_1", "grp_1", "", false⟩

/-- A submission without property version. -/
def noVersionUpdate : UpdateRulesRequest :=
  ⟨"prp_1", 0, "ctr_1", false, "grp_1", "", true, validTree⟩

/-- A fetch request without contract and group. -/
def noContractGet : GetRuleTreeRequest := ⟨"prp_1", 3, "", "", "", true⟩

/-- A submission without contract and group. -/
def noContractUpdate : UpdateRulesRequest := ⟨"prp_1", 3, "", false, "", "", true, validTree⟩

/-- A decoded fetch response. -/
def sampleGetResponse : GetRuleTreeResponse :=
  ⟨"act_1", "ctr_1", "grp_1", "prp_1", 3, "6aed418629b4e5c0", "v2020-03-04", validTree⟩

/-- A decoded submission response. -/
def sampleUpdateResponse : UpdateRulesResponse :=
  ⟨"act_1", "ctr_1", "grp_1", "prp_1", 3, "6aed418629b4e5c0", "v2020-03-04", validTree, []⟩

/-- A client whose transport accepts every request line and answers every exchange with the
given status code and decoded value. -/
def answering {Out : Type} (status : Int) (out : Out) : papi Out :=
  ⟨⟨fun _ _ => true, fun _ => .ok (⟨status, ""⟩, out)⟩, true⟩

end Papi

namespace Appsec

/-- Three contract/group pairs, the first and the last one equal. -/
def sampleGroups : List ContractGroup :=
  [⟨"C-1", "first", 7⟩, ⟨"C-2", "second", 7⟩, ⟨"C-1", "first", 7⟩]

/-- A client whose transport answers every exchange with status 200 and the sample list. -/
def answeringGroups : appsec :=
  ⟨⟨fun _ _ => true, fun _ => .ok (⟨200, ""⟩, ⟨sampleGroups⟩)⟩⟩

end Appsec

/-! ## Lemmas on the validation library -/

namespace Papi

theorem Errors.Filter_eq_none_iff (es : List (String × Option VError)) :
    Errors.Filter es = none ↔ ∀ kv ∈ es, kv.2 = none := by
  unfold Errors.Filter Errors.kept
  split
  · rename_i h
    simp only [true_iff]
    intro kv hkv
    rw [List.filterMap_eq_nil_iff] at h
    have := h kv hkv
    simpa using this
  · rename_i h
    simp only [false_iff, reduceCtorEq]
    intro hall
    apply h
    rw [List.filterMap_eq_nil_iff]
    intro kv hkv
    simp [hall kv hkv]

theorem requiredString_eq_none_iff (s : String) : requiredString s = none ↔ s ≠ "" := by
  unfold requiredString; split <;> simp_all

theorem requiredInt_eq_none_iff (n : Int) : requiredInt n = none ↔ n ≠ 0 := by
  unfold requiredInt; split <;> simp_all

theorem requiredLen_eq_none_iff {α : Type} (xs : List α) : requiredLen xs = none ↔ xs ≠ [] := by
  unfold requiredLen; split <;> simp_all

theorem sliceErrorsFrom_eq_nil_iff {α : Type} (validate : α → Option VError) (xs : List α) :
    ∀ i, sliceErrorsFrom validate i xs = [] ↔ ∀ x ∈ xs, validate x = none := by
  induction xs with
  | nil => intro i; simp [sliceErrorsFrom]
  | cons x xs ih =>
    intro i
    simp only [sliceErrorsFrom]
    cases h : validate x with
    | none => simp [ih (i + 1), h]
    | some e => simp [h]

theorem validateSlice_eq_none_iff {α : Type} (validate : α → Option VError) (xs : List α) :
    validateSlice validate xs = none ↔ ∀ x ∈ xs, validate x = none := by
  rw [← sliceErrorsFrom_eq_nil_iff validate xs 0]
  unfold validateSlice
  split <;> simp_all

theorem RuleBehavior_Validate_eq_none_iff (b : RuleBehavior) :
    b.Validate = none ↔ b.Checks := by
  simp [RuleBehavior.Validate, Errors.Filter_eq_none_iff, RuleBehavior.Checks,
    requiredString_eq_none_iff, requiredLen_eq_none_iff]

theorem RuleVariable_Validate_eq_none_iff (v : RuleVariable) :
    v.Validate = none ↔ v.Checks := by
  simp [RuleVariable.Validate, Errors.Filter_eq_none_iff, RuleVariable.Checks,
    requiredString_eq_none_iff]

theorem RuleCustomOverride_Validate_eq_none_iff (co : RuleCustomOverride) :
    co.Validate = none ↔ co.Checks := by
  simp [RuleCustomOverride.Validate, Errors.Filter_eq_none_iff, RuleCustomOverride.Checks,
    requiredString_eq_none_iff]

theorem validateBehaviorsRequired_eq_none_iff (bs : List RuleBehavior) :
    validateBehaviorsRequired bs = none ↔ bs ≠ [] ∧ ∀ b ∈ bs, b.Checks := by
  unfold validateBehaviorsRequired
  split
  · rename_i e h
    have : ¬ (requiredLen bs = none) := by simp [h]
    rw [requiredLen_eq_none_iff] at this
    simp_all
  · rename_i h
    rw [requiredLen_eq_none_iff] at h
    simp [validateSlice_eq_none_iff, RuleBehavior_Validate_eq_none_iff, h]

theorem validateCustomOverride_eq_none_iff (co : Option RuleCustomOverride) :
    validateCustomOverride co = none ↔ ∀ c, co = some c → c.Checks := by
  cases co with
  | none => simp [validateCustomOverride]
  | some c => simp [validateCustomOverride, RuleCustomOverride_Validate_eq_none_iff]

theorem Rules.childErrorsFrom_eq (cs : List Rules) :
    ∀ i, Rules.childErrorsFrom i cs = sliceErrorsFrom Rules.Validate i cs := by
  induction cs with
  | nil => intro i; simp [Rules.childErrorsFrom, sliceErrorsFrom]
  | cons c cs ih =>
    intro i
    simp only [Rules.childErrorsFrom, sliceErrorsFrom, ih (i + 1)]

/-- The method `Rules.Validate`, with the validation of the children written through
`validateSlice`. -/
theorem Rules.Validate_eq (r : Rules) :
    r.Validate = Errors.Filter [
      ("Behaviors", validateBehaviorsRequired r.Behaviors),
      ("Name", requiredString r.Name),
      ("CustomOverride", validateCustomOverride r.CustomOverride),
      ("Criteria", validateSlice RuleBehavior.Validate r.Criteria),
      ("Children", validateSlice Rules.Validate r.Children),
      ("Variables", validateSlice RuleVariable.Validate r.Variables)] := by
  cases r with
  | mk ao bs cs cm cr cl co n op uu vs =>
    simp only [Rules.Validate, Rules.childErrorsFrom_eq, validateSlice, Rules.Behaviors,
      Rules.Name, Rules.CustomOverride, Rules.Criteria, Rules.Children, Rules.Variables]

theorem Rules_Validate_eq_none_iff (r : Rules) :
    r.Validate = none ↔ r.NodeChecks ∧ ∀ c ∈ r.Children, c.Validate = none := by
  rw [Rules.Validate_eq, Errors.Filter_eq_none_iff]
  simp only [List.mem_cons, List.mem_singleton, forall_eq_or_imp, forall_eq,
    validateBehaviorsRequired_eq_none_iff, requiredString_eq_none_iff,
    validateCustomOverride_eq_none_iff, validateSlice_eq_none_iff,
    RuleBehavior_Validate_eq_none_iff, RuleVariable_Validate_eq_none_iff, Rules.NodeChecks,
    List.not_mem_nil, false_imp_iff, implies_true, and_true]
  tauto

theorem Rules.sizeOf_child_lt {r c : Rules} (h : c ∈ r.Children) : sizeOf c < sizeOf r := by
  cases r with
  | mk ao bs cs cm cr cl co n op uu vs =>
    have := List.sizeOf_lt_of_mem h
    simp only [Rules.Children] at this
    simp only [Rules.mk.sizeOf_spec]
    omega

theorem Rules.Validate_of_reachable (n : Nat) :
    ∀ r : Rules, sizeOf r ≤ n → (∀ m, Rules.Reachable r m → m.NodeChecks) →
      r.Validate = none := by
  induction n with
  | zero =>
    intro r h
    cases r
    simp only [Rules.mk.sizeOf_spec] at h
    omega
  | succ n ih =>
    intro r hsize hall
    rw [Rules_Validate_eq_none_iff]
    refine ⟨hall r (Rules.Reachable.root r), ?_⟩
    intro c hc
    apply ih c
    · have := Rules.sizeOf_child_lt hc
      omega
    · intro m hm
      exact hall m (Rules.Reachable.child hc hm)

/-! ### Looking up an entry of a report -/

theorem digitChar_inj :
    ∀ a : Fin 10, ∀ b : Fin 10, Nat.digitChar a.val = Nat.digitChar b.val → a = b := by
  decide

theorem toDigitsCore_append (fuel : Nat) : ∀ (n : Nat) (ds : List Char),
    Nat.toDigitsCore 10 fuel n ds = Nat.toDigitsCore 10 fuel n [] ++ ds := by
  induction fuel with
  | zero => intro n ds; simp [Nat.toDigitsCore]
  | succ f ih =>
    intro n ds
    simp only [Nat.toDigitsCore]
    by_cases h : n / 10 = 0
    · simp [h]
    · simp only [h, if_false]
      rw [ih (n / 10) (Nat.digitChar (n % 10) :: ds), ih (n / 10) [Nat.digitChar (n % 10)]]
      simp

theorem toDigitsCore_ne_nil (fuel n : Nat) (ds : List Char) :
    Nat.toDigitsCore 10 (fuel + 1) n ds ≠ [] := by
  simp only [Nat.toDigitsCore]
  by_cases h : n / 10 = 0
  · simp [h]
  · simp only [h, if_false]
    rw [toDigitsCore_append]
    simp

theorem toDigitsCore_inj (f1 : Nat) : ∀ (f2 n m : Nat), n < f1 → m < f2 →
    Nat.toDigitsCore 10 f1 n [] = Nat.toDigitsCore 10 f2 m [] → n = m := by
  induction f1 with
  | zero => intro f2 n m h; omega
  | succ f1 ih =>
    intro f2 n m hn hm heq
    cases f2 with
    | zero => omega
    | succ f2 =>
      have hd : ∀ a b : Nat,
          Nat.digitChar (a % 10) = Nat.digitChar (b % 10) → a % 10 = b % 10 := by
        intro a b hab
        exact congrArg Fin.val (digitChar_inj ⟨a % 10, Nat.mod_lt _ (by decide)⟩
          ⟨b % 10, Nat.mod_lt _ (by decide)⟩ hab)
      simp only [Nat.toDigitsCore] at heq
      by_cases h1 : n / 10 = 0 <;> by_cases h2 : m / 10 = 0
      · simp only [h1, h2, if_true] at heq
        have := hd n m (List.head_eq_of_cons_eq heq)
        omega
      · simp only [h1, h2, if_true, if_false] at heq
        rw [toDigitsCore_append] at heq
        cases f2 with
        | zero => omega
        | succ f2 =>
          have hlen := congrArg List.length heq
          simp at hlen
          exact absurd hlen (toDigitsCore_ne_nil f2 (m / 10) [])
      · simp only [h1, h2, if_true, if_false] at heq
        rw [toDigitsCore_append] at heq
        cases f1 with
        | zero => omega
        | succ f1 =>
          have hlen := congrArg List.length heq
          simp at hlen
          exact absurd hlen (toDigitsCore_ne_nil f1 (n / 10) [])
      · simp only [h1, h2, if_false] at heq
        rw [toDigitsCore_append f1, toDigitsCore_append f2] at heq
        have hlen : (Nat.toDigitsCore 10 f1 (n / 10) []).length =
            (Nat.toDigitsCore 10 f2 (m / 10) []).length := by
          have := congrArg List.length heq
          simpa using this
        have h3 := List.append_inj heq hlen
        have h4 := ih f2 (n / 10) (m / 10) (by omega) (by omega) h3.1
        have h5 := hd n m (List.head_eq_of_cons_eq h3.2)
        omega

/-- Two indices with the same decimal rendering are equal. -/
theorem Itoa_injective {n m : Nat} (h : Itoa n = Itoa m) : n = m := by
  simp only [Itoa, Nat.repr, Nat.toDigits, List.asString] at h
  exact toDigitsCore_inj (n + 1) (m + 1) n m (by omega) (by omega) (by injection h)

theorem sliceErrorsFrom_lookup_lt {α : Type} (validate : α → Option VError) (xs : List α) :
    ∀ i k, k < i → (sliceErrorsFrom validate i xs).lookup (Itoa k) = none := by
  induction xs with
  | nil => intro i k _; simp [sliceErrorsFrom]
  | cons x xs ih =>
    intro i k hk
    simp only [sliceErrorsFrom]
    cases validate x with
    | none => exact ih (i + 1) k (by omega)
    | some e =>
      have hne : (Itoa k == Itoa i) = false := by
        rw [beq_eq_false_iff_ne]
        intro h
        have := Itoa_injective h
        omega
      simp only [List.lookup_cons, hne]
      exact ih (i + 1) k (by omega)

/-- The entry of the map built by `validateSlice` under the key of index `i + j` is the error
of element `j`. -/
theorem sliceErrorsFrom_lookup {α : Type} (validate : α → Option VError) (xs : List α) :
    ∀ i j, (sliceErrorsFrom validate i xs).lookup (Itoa (i + j)) = (xs[j]?).bind validate := by
  induction xs with
  | nil => intro i j; simp [sliceErrorsFrom]
  | cons x xs ih =>
    intro i j
    simp only [sliceErrorsFrom]
    cases j with
    | zero =>
      cases h : validate x with
      | none => simpa [h] using sliceErrorsFrom_lookup_lt validate xs (i + 1) i (by omega)
      | some e => simp [List.lookup_cons, h]
    | succ j =>
      have hij : i + (j + 1) = (i + 1) + j := by omega
      cases h : validate x with
      | none => simpa [hij] using ih (i + 1) j
      | some e =>
        have hne : (Itoa (i + (j + 1)) == Itoa i) = false := by
          rw [beq_eq_false_iff_ne]
          intro h
          have := Itoa_injective h
          omega
        simp only [List.lookup_cons, hne]
        simpa [hij] using ih (i + 1) j

theorem reportAt_validateSlice {α : Type} (validate : α → Option VError) (xs : List α)
    (i : Nat) (ks : List String) :
    reportAt (validateSlice validate xs) (Itoa i :: ks) =
      reportAt ((xs[i]?).bind validate) ks := by
  have h := sliceErrorsFrom_lookup validate xs 0 i
  rw [Nat.zero_add] at h
  unfold validateSlice
  split
  · rename_i hnil
    rw [hnil] at h
    simp only [List.lookup_nil] at h
    rw [← h]
    cases ks <;> simp [reportAt]
  · simp only [reportAt, VError.entry, h]

theorem reportAt_Filter (es : List (String × Option VError)) (k : String)
    (ks : List String) :
    reportAt (Errors.Filter es) (k :: ks) = reportAt ((Errors.kept es).lookup k) ks := by
  unfold Errors.Filter
  split
  · rename_i hnil
    rw [hnil]
    cases ks <;> simp [reportAt]
  · simp only [reportAt, VError.entry]

theorem mem_reportKeys_Filter (es : List (String × Option VError)) (k : String) :
    k ∈ reportKeys (Errors.Filter es) ↔ ∃ e, (k, some e) ∈ es := by
  have hk : k ∈ (Errors.kept es).map Prod.fst ↔ ∃ e, (k, some e) ∈ es := by
    simp only [Errors.kept, List.mem_map, List.mem_filterMap]
    constructor
    · rintro ⟨⟨a, b⟩, ⟨⟨a', b'⟩, hmem, heq⟩, rfl⟩
      cases b' with
      | none => simp at heq
      | some e =>
        simp only [Option.map_some', Option.some.injEq, Prod.mk.injEq] at heq
        obtain ⟨rfl, rfl⟩ := heq
        exact ⟨e, hmem⟩
    · rintro ⟨e, hmem⟩
      exact ⟨(k, e), ⟨(k, some e), hmem, rfl⟩, rfl⟩
  unfold Errors.Filter
  split
  · rename_i hnil
    rw [hnil] at hk
    simpa [reportKeys] using hk
  · simpa [reportKeys] using hk

theorem reportAt_none (ks : List String) : reportAt none ks = none := by
  cases ks <;> rfl

theorem reportAt_nil (x : Option VError) : reportAt x [] = x := by
  cases x <;> rfl

theorem Rules.reportAt_Name (r : Rules) (ks : List String) :
    reportAt r.Validate ("Name" :: ks) = reportAt (requiredString r.Name) ks := by
  rw [Rules.Validate_eq, reportAt_Filter]
  cases validateBehaviorsRequired r.Behaviors <;> cases requiredString r.Name <;>
  cases validateCustomOverride r.CustomOverride <;>
  cases validateSlice RuleBehavior.Validate r.Criteria <;>
  cases validateSlice Rules.Validate r.Children <;>
  cases validateSlice RuleVariable.Validate r.Variables <;>
  simp [Errors.kept, List.lookup, reportAt_none]

theorem Rules.reportAt_Criteria (r : Rules) (ks : List String) :
    reportAt r.Validate ("Criteria" :: ks) =
      reportAt (validateSlice RuleBehavior.Validate r.Criteria) ks := by
  rw [Rules.Validate_eq, reportAt_Filter]
  cases validateBehaviorsRequired r.Behaviors <;> cases requiredString r.Name <;>
  cases validateCustomOverride r.CustomOverride <;>
  cases validateSlice RuleBehavior.Validate r.Criteria <;>
  cases validateSlice Rules.Validate r.Children <;>
  cases validateSlice RuleVariable.Validate r.Variables <;>
  simp [Errors.kept, List.lookup, reportAt_none]

theorem Rules.reportAt_Children (r : Rules) (ks : List String) :
    reportAt r.Validate ("Children" :: ks) =
      reportAt (validateSlice Rules.Validate r.Children) ks := by
  rw [Rules.Validate_eq, reportAt_Filter]
  cases validateBehaviorsRequired r.Behaviors <;> cases requiredString r.Name <;>
  cases validateCustomOverride r.CustomOverride <;>
  cases validateSlice RuleBehavior.Validate r.Criteria <;>
  cases validateSlice Rules.Validate r.Children <;>
  cases validateSlice RuleVariable.Validate r.Variables <;>
  simp [Errors.kept, List.lookup, reportAt_none]

theorem Rules.reportAt_Variables (r : Rules) (ks : List String) :
    reportAt r.Validate ("Variables" :: ks) =
      reportAt (validateSlice RuleVariable.Validate r.Variables) ks := by
  rw [Rules.Validate_eq, reportAt_Filter]
  cases validateBehaviorsRequired r.Behaviors <;> cases requiredString r.Name <;>
  cases validateCustomOverride r.CustomOverride <;>
  cases validateSlice RuleBehavior.Validate r.Criteria <;>
  cases validateSlice Rules.Validate r.Children <;>
  cases validateSlice RuleVariable.Validate r.Variables <;>
  simp [Errors.kept, List.lookup, reportAt_none]

theorem exists_eq_some_iff (x : Option VError) : (∃ e, some e = x) ↔ ¬ x = none := by
  cases x <;> simp

end Papi

/-! ## The validation of the rule tree -/

namespace Papi

/-- C1: for every rule tree, `Rules.Validate` returns no error if and only if the checks of a
node (a name, at least one behavior, every behavior and criterion with a name and options,
every variable with a name, a custom override absent or with a name and an override id) hold
at every rule reachable through `Children`; equivalently it returns an error if and only if
the checks fail at some reachable rule. -/
theorem Rules.Validate_ok_iff_all_checks (r : Rules) :
    (r.Validate = none ↔ ∀ n, Rules.Reachable r n → n.NodeChecks) ∧
      (r.Validate ≠ none ↔ ∃ n, Rules.Reachable r n ∧ ¬ n.NodeChecks) := by
  have h : r.Validate = none ↔ ∀ n, Rules.Reachable r n → n.NodeChecks := by
    constructor
    · intro hv n hn
      induction hn with
      | root r => exact ((Rules_Validate_eq_none_iff r).1 hv).1
      | child hc _ ih => exact ih (((Rules_Validate_eq_none_iff _).1 hv).2 _ hc)
    · intro hall
      exact Rules.Validate_of_reachable (sizeOf r) r (Nat.le_refl _) hall
  refine ⟨h, ?_⟩
  rw [Ne, h]
  push_neg
  rfl

/-- C2, counterexample: a root with a name, exactly one behavior and nothing else is rejected
when that behavior has neither a name nor options. -/
theorem blankBehaviorTree_rejected :
    blankBehaviorTree.Name ≠ "" ∧ blankBehaviorTree.Behaviors.length = 1 ∧
      blankBehaviorTree.Children = [] ∧ blankBehaviorTree.Criteria = [] ∧
      blankBehaviorTree.Variables = [] ∧ blankBehaviorTree.CustomOverride = none ∧
      blankBehaviorTree.Validate =
        some (.errors [("Behaviors", .errors [("0",
          .errors [("Name", ErrRequired), ("Options", ErrRequired)])])]) :=
  ⟨by decide, rfl, rfl, rfl, rfl, rfl, rfl⟩

/-- C2, amended: a root with a name, exactly one behavior and no children, criteria, variables
or custom override is valid if and only if that behavior has a name and a non-empty options
map. -/
theorem Rules.Validate_single_behavior (r : Rules) (b : RuleBehavior)
    (hname : r.Name ≠ "") (hb : r.Behaviors = [b]) (hch : r.Children = [])
    (hcr : r.Criteria = []) (hv : r.Variables = []) (hco : r.CustomOverride = none) :
    r.Validate = none ↔ b.Name ≠ "" ∧ b.Options ≠ [] := by
  rw [Rules_Validate_eq_none_iff]
  simp [Rules.NodeChecks, hname, hb, hch, hcr, hv, hco, RuleBehavior.Checks]

/-- Instance of the amended C2 at the valid one-behavior tree. -/
theorem Rules.Validate_single_behavior_witness :
    validTree.Validate = none ↔ sampleBehavior.Name ≠ "" ∧ sampleBehavior.Options ≠ [] :=
  Rules.Validate_single_behavior validTree sampleBehavior (by decide) rfl rfl rfl rfl rfl

/-- C3: when the child at index `i` has an empty name, `Rules.Validate` returns an error and
the report has the entry `Required` at the path Children, `i`, Name, whatever the rest of the
tree is. -/
theorem Rules.Validate_unnamed_child (r : Rules) (i : Nat) (c : Rules)
    (hc : r.Children[i]? = some c) (hn : c.Name = "") :
    r.Validate ≠ none ∧
      reportAt r.Validate ["Children", Itoa i, "Name"] = some ErrRequired := by
  have hpath : reportAt r.Validate ["Children", Itoa i, "Name"] = some ErrRequired := by
    rw [Rules.reportAt_Children, reportAt_validateSlice, hc, Option.some_bind,
      Rules.reportAt_Name, hn]
    rfl
  refine ⟨?_, hpath⟩
  intro hnone
  rw [hnone, reportAt_none] at hpath
  cases hpath

/-- Instance of C3: the unnamed second child of an invalid root. -/
theorem Rules.Validate_unnamed_child_witness :
    unnamedChildTree.Validate ≠ none ∧
      reportAt unnamedChildTree.Validate ["Children", Itoa 1, "Name"] = some ErrRequired :=
  Rules.Validate_unnamed_child unnamedChildTree 1 (sampleRule "" [sampleBehavior] []) rfl rfl

/-- C4: the report of `Rules.Validate` aggregates. Its keys are exactly those of Behaviors,
Name, CustomOverride, Criteria, Children and Variables whose check fails, and under Children,
Criteria and Variables the entry of index `i` is the error report of the element `i` itself:
present exactly when that element exists and fails its own validation. -/
theorem Rules.Validate_report (r : Rules) :
    (∀ k, k ∈ reportKeys r.Validate ↔
      (k = "Behaviors" ∧ (r.Behaviors = [] ∨ ∃ b ∈ r.Behaviors, ¬ b.Checks)) ∨
      (k = "Name" ∧ r.Name = "") ∨
      (k = "CustomOverride" ∧ ∃ co, r.CustomOverride = some co ∧ ¬ co.Checks) ∨
      (k = "Criteria" ∧ ∃ c ∈ r.Criteria, ¬ c.Checks) ∨
      (k = "Children" ∧ ∃ c ∈ r.Children, c.Validate ≠ none) ∨
      (k = "Variables" ∧ ∃ v ∈ r.Variables, ¬ v.Checks)) ∧
    (∀ i, reportAt r.Validate ["Children", Itoa i] = (r.Children[i]?).bind Rules.Validate) ∧
    (∀ i, reportAt r.Validate ["Criteria", Itoa i] =
      (r.Criteria[i]?).bind RuleBehavior.Validate) ∧
    (∀ i, reportAt r.Validate ["Variables", Itoa i] =
      (r.Variables[i]?).bind RuleVariable.Validate) := by
  refine ⟨?_, ?_, ?_, ?_⟩
  · intro k
    rw [Rules.Validate_eq, mem_reportKeys_Filter]
    simp only [List.mem_cons, List.mem_singleton, Prod.mk.injEq, List.not_mem_nil, or_false,
      exists_or, exists_and_left, exists_eq_some_iff, validateBehaviorsRequired_eq_none_iff,
      requiredString_eq_none_iff, validateCustomOverride_eq_none_iff,
      validateSlice_eq_none_iff, RuleBehavior_Validate_eq_none_iff,
      RuleVariable_Validate_eq_none_iff]
    push_neg
    have hb : (r.Behaviors ≠ [] → ∃ b ∈ r.Behaviors, ¬ b.Checks) ↔
        (r.Behaviors = [] ∨ ∃ b ∈ r.Behaviors, ¬ b.Checks) := by
      by_cases h : r.Behaviors = [] <;> simp [h]
    rw [hb]
  · intro i
    rw [Rules.reportAt_Children, reportAt_validateSlice, reportAt_nil]
  · intro i
    rw [Rules.reportAt_Criteria, reportAt_validateSlice, reportAt_nil]
  · intro i
    rw [Rules.reportAt_Variables, reportAt_validateSlice, reportAt_nil]

end Papi

/-! ## Validation of the requests -/

namespace Papi

open Session

theorem inRule_modes_eq_none_iff (m : String) :
    inRule [RuleValidateModeFast, RuleValidateModeFull] m = none ↔
      m = "" ∨ m = "fast" ∨ m = "full" := by
  unfold inRule RuleValidateModeFast RuleValidateModeFull
  by_cases h0 : m = ""
  · simp [h0]
  · by_cases h1 : m = "fast"
    · simp [h1]
    · by_cases h2 : m = "full"
      · simp [h2]
      · have h1' : ¬ "fast" = m := fun h => h1 h.symm
        have h2' : ¬ "full" = m := fun h => h2 h.symm
        simp [h0, h1, h2, h1', h2']

theorem inRule_modes_of_not (m : String) (h : ¬ (m = "" ∨ m = "fast" ∨ m = "full")) :
    inRule [RuleValidateModeFast, RuleValidateModeFull] m = some ErrInInvalid := by
  have hne : ¬ inRule [RuleValidateModeFast, RuleValidateModeFull] m = none := by
    rw [inRule_modes_eq_none_iff]; exact h
  unfold inRule at hne ⊢
  split
  · simp_all
  · split
    · simp_all
    · rfl

theorem GetRuleTree_of_invalid (p : papi GetRuleTreeResponse) (g : GetRuleTreeRequest)
    (report : VError) (h : g.Validate = some report) :
    GetRuleTree p g = ⟨[], .error (.structValidation report)⟩ := by
  unfold GetRuleTree
  rw [h]

theorem UpdateRuleTree_of_invalid (p : papi UpdateRulesResponse) (u : UpdateRulesRequest)
    (report : VError) (h : u.Validate = some report) :
    UpdateRuleTree p u = ⟨[], .error (.structValidation report)⟩ := by
  unfold UpdateRuleTree
  rw [h]

theorem GetRuleTreeRequest_Validate_eq_none_iff (g : GetRuleTreeRequest) :
    g.Validate = none ↔ g.PropertyID ≠ "" ∧ g.PropertyVersion ≠ 0 ∧
      (g.ValidateMode = "" ∨ g.ValidateMode = "fast" ∨ g.ValidateMode = "full") := by
  simp [GetRuleTreeRequest.Validate, Errors.Filter_eq_none_iff, requiredString_eq_none_iff,
    requiredInt_eq_none_iff, inRule_modes_eq_none_iff]

theorem UpdateRulesRequest_Validate_eq_none_iff (u : UpdateRulesRequest) :
    u.Validate = none ↔ u.PropertyID ≠ "" ∧ u.PropertyVersion ≠ 0 ∧
      (u.ValidateMode = "" ∨ u.ValidateMode = "fast" ∨ u.ValidateMode = "full") ∧
      u.Rules.Validate = none := by
  simp [UpdateRulesRequest.Validate, Errors.Filter_eq_none_iff, requiredString_eq_none_iff,
    requiredInt_eq_none_iff, inRule_modes_eq_none_iff]

/-- C5: with the other validated fields valid, both requests validate when the validate mode is
empty, fast or full; for any other mode the report is the single entry ValidateMode and the
operation returns the struct-validation error without handing anything to the transport. -/
theorem ValidateMode_fast_or_full (g : GetRuleTreeRequest) (u : UpdateRulesRequest)
    (hg1 : g.PropertyID ≠ "") (hg2 : g.PropertyVersion ≠ 0)
    (hu1 : u.PropertyID ≠ "") (hu2 : u.PropertyVersion ≠ 0) (hu3 : u.Rules.Validate = none) :
    ((g.ValidateMode = "" ∨ g.ValidateMode = "fast" ∨ g.ValidateMode = "full") →
      g.Validate = none) ∧
    (¬ (g.ValidateMode = "" ∨ g.ValidateMode = "fast" ∨ g.ValidateMode = "full") →
      g.Validate = some (.errors [("ValidateMode", ErrInInvalid)]) ∧
      ∀ p, GetRuleTree p g =
        ⟨[], .error (.structValidation (.errors [("ValidateMode", ErrInInvalid)]))⟩) ∧
    ((u.ValidateMode = "" ∨ u.ValidateMode = "fast" ∨ u.ValidateMode = "full") →
      u.Validate = none) ∧
    (¬ (u.ValidateMode = "" ∨ u.ValidateMode = "fast" ∨ u.ValidateMode = "full") →
      u.Validate = some (.errors [("ValidateMode", ErrInInvalid)]) ∧
      ∀ p, UpdateRuleTree p u =
        ⟨[], .error (.structValidation (.errors [("ValidateMode", ErrInInvalid)]))⟩) := by
  have hgbad : ¬ (g.ValidateMode = "" ∨ g.ValidateMode = "fast" ∨ g.ValidateMode = "full") →
      g.Validate = some (.errors [("ValidateMode", ErrInInvalid)]) := by
    intro h
    simp [GetRuleTreeRequest.Validate, Errors.Filter, Errors.kept,
      (requiredString_eq_none_iff _).2 hg1, (requiredInt_eq_none_iff _).2 hg2,
      inRule_modes_of_not _ h]
  have hubad : ¬ (u.ValidateMode = "" ∨ u.ValidateMode = "fast" ∨ u.ValidateMode = "full") →
      u.Validate = some (.errors [("ValidateMode", ErrInInvalid)]) := by
    intro h
    simp [UpdateRulesRequest.Validate, Errors.Filter, Errors.kept,
      (requiredString_eq_none_iff _).2 hu1, (requiredInt_eq_none_iff _).2 hu2,
      inRule_modes_of_not _ h, hu3]
  refine ⟨?_, ?_, ?_, ?_⟩
  · intro h
    exact (GetRuleTreeRequest_Validate_eq_none_iff g).2 ⟨hg1, hg2, h⟩
  · intro h
    exact ⟨hgbad h, fun p => GetRuleTree_of_invalid p g _ (hgbad h)⟩
  · intro h
    exact (UpdateRulesRequest_Validate_eq_none_iff u).2 ⟨hu1, hu2, h, hu3⟩
  · intro h
    exact ⟨hubad h, fun p => UpdateRuleTree_of_invalid p u _ (hubad h)⟩

/-- Instance of C5: the mode slow is refused on a fetch, the mode fast is accepted on a
submission. -/
theorem ValidateMode_fast_or_full_witness :
    ((sampleGet "slow").Validate = some (.errors [("ValidateMode", ErrInInvalid)]) ∧
      ∀ p, GetRuleTree p (sampleGet "slow") =
        ⟨[], .error (.structValidation (.errors [("ValidateMode", ErrInInvalid)]))⟩) ∧
      (sampleUpdate "fast").Validate = none :=
  ⟨(ValidateMode_fast_or_full (sampleGet "slow") (sampleUpdate "fast") (by decide)
      (by decide) (by decide) (by decide) rfl).2.1 (by decide),
    (ValidateMode_fast_or_full (sampleGet "slow") (sampleUpdate "fast") (by decide)
      (by decide) (by decide) (by decide) rfl).2.2.1 (Or.inr (Or.inl rfl))⟩

/-- C6, counterexample: a fetch and a submission without contract id and group id pass
validation, and the operation hands its request to the transport. -/
theorem missing_contract_and_group_accepted :
    noContractGet.ContractID = "" ∧ noContractGet.GroupID = "" ∧
      noContractGet.Validate = none ∧
      (GetRuleTree (answering 200 sampleGetResponse) noContractGet).calls.length = 1 ∧
      noContractUpdate.ContractID = "" ∧ noContractUpdate.GroupID = "" ∧
      noContractUpdate.Validate = none ∧
      (UpdateRuleTree (answering 200 sampleUpdateResponse) noContractUpdate).calls.length
        = 1 :=
  ⟨rfl, rfl, rfl, rfl, rfl, rfl, rfl, rfl⟩

/-- C6, amended: a fetch or a submission whose property id is empty or whose property version
is zero does not validate, and the operation returns the struct-validation error without
handing anything to the transport; the contract id and the group id are not validated: for
every request, valid or not, the result of `Validate` is the same whatever these two fields
are, and a request validates exactly when its property id, property version and validate mode
(and, for a submission, its tree) pass, so that a request valid but for an empty contract id
and group id validates and reaches the transport once the request line is accepted. -/
theorem property_and_version_required (g : GetRuleTreeRequest) (u : UpdateRulesRequest) :
    (g.PropertyID = "" ∨ g.PropertyVersion = 0 →
      ∃ report, g.Validate = some report ∧
        ∀ p, GetRuleTree p g = ⟨[], .error (.structValidation report)⟩) ∧
    (u.PropertyID = "" ∨ u.PropertyVersion = 0 →
      ∃ report, u.Validate = some report ∧
        ∀ p, UpdateRuleTree p u = ⟨[], .error (.structValidation report)⟩) ∧
    (∀ contractID groupID,
      GetRuleTreeRequest.Validate { g with ContractID := contractID, GroupID := groupID } =
        g.Validate) ∧
    (∀ contractID groupID,
      UpdateRulesRequest.Validate { u with ContractID := contractID, GroupID := groupID } =
        u.Validate) ∧
    (g.Validate = none ↔ g.PropertyID ≠ "" ∧ g.PropertyVersion ≠ 0 ∧
      (g.ValidateMode = "" ∨ g.ValidateMode = "fast" ∨ g.ValidateMode = "full")) ∧
    (u.Validate = none ↔ u.PropertyID ≠ "" ∧ u.PropertyVersion ≠ 0 ∧
      (u.ValidateMode = "" ∨ u.ValidateMode = "fast" ∨ u.ValidateMode = "full") ∧
      u.Rules.Validate = none) ∧
    (∀ contractID groupID (p : papi GetRuleTreeResponse), g.Validate = none →
      p.transport.newRequestOK "GET"
        (getRuleTreeURL { g with ContractID := contractID, GroupID := groupID }) = true →
      (GetRuleTree p { g with ContractID := contractID, GroupID := groupID }).calls.length
        = 1) ∧
    (∀ contractID groupID (p : papi UpdateRulesResponse), u.Validate = none →
      p.transport.newRequestOK "PUT"
        (updateRuleTreeURL { u with ContractID := contractID, GroupID := groupID }) = true →
      (UpdateRuleTree p { u with ContractID := contractID, GroupID := groupID }).calls.length
        = 1) := by
  refine ⟨?_, ?_, fun _ _ => rfl, fun _ _ => rfl,
    GetRuleTreeRequest_Validate_eq_none_iff g, UpdateRulesRequest_Validate_eq_none_iff u,
    ?_, ?_⟩
  · intro hg
    cases hv : g.Validate with
    | none =>
      have := (GetRuleTreeRequest_Validate_eq_none_iff g).1 hv
      rcases hg with h | h
      · exact absurd h this.1
      · exact absurd h this.2.1
    | some report => exact ⟨report, rfl, fun p => GetRuleTree_of_invalid p g report hv⟩
  · intro hu
    cases hv : u.Validate with
    | none =>
      have := (UpdateRulesRequest_Validate_eq_none_iff u).1 hv
      rcases hu with h | h
      · exact absurd h this.1
      · exact absurd h this.2.1
    | some report => exact ⟨report, rfl, fun p => UpdateRuleTree_of_invalid p u report hv⟩
  · intro contractID groupID p hv hp
    have hv2 : GetRuleTreeRequest.Validate
        { g with ContractID := contractID, GroupID := groupID } = none := hv
    unfold GetRuleTree
    simp only [hv2, hp]
    cases p.transport.Exec _ with
    | error cause => simp
    | ok v =>
      obtain ⟨resp, versions⟩ := v
      by_cases hs : resp.StatusCode = 404
      · simp [hs]
      · by_cases hs2 : resp.StatusCode = 200 <;> simp [hs, hs2]
  · intro contractID groupID p hv hp
    have hv2 : UpdateRulesRequest.Validate
        { u with ContractID := contractID, GroupID := groupID } = none := hv
    unfold UpdateRuleTree
    simp only [hv2, hp]
    cases p.transport.Exec _ with
    | error cause => simp
    | ok v =>
      obtain ⟨resp, versions⟩ := v
      by_cases hs : resp.StatusCode = 200 <;> simp [hs]

/-- Instance of the amended C6: a fetch without property id and a submission with version
zero are refused; the valid sample fetch with its contract id and group id emptied still
validates. -/
theorem property_and_version_required_witness :
    (∃ report, noPropertyGet.Validate = some report ∧
      ∀ p, GetRuleTree p noPropertyGet = ⟨[], .error (.structValidation report)⟩) ∧
    (∃ report, noVersionUpdate.Validate = some report ∧
      ∀ p, UpdateRuleTree p noVersionUpdate = ⟨[], .error (.structValidation report)⟩) ∧
    GetRuleTreeRequest.Validate { sampleGet "fast" with ContractID := "", GroupID := "" } =
      none ∧
    (GetRuleTree (answering 200 sampleGetResponse)
      { sampleGet "fast" with ContractID := "", GroupID := "" }).calls.length = 1 :=
  ⟨(property_and_version_required noPropertyGet noVersionUpdate).1 (Or.inl rfl),
    (property_and_version_required noPropertyGet noVersionUpdate).2.1 (Or.inr rfl),
    ((property_and_version_required (sampleGet "fast") noVersionUpdate).2.2.1 "" "").trans
      rfl,
    (property_and_version_required (sampleGet "fast") noVersionUpdate).2.2.2.2.2.2.1 "" ""
      (answering 200 sampleGetResponse) rfl rfl⟩

theorem UpdateRulesRequest.reportAt_Rules (u : UpdateRulesRequest) (ks : List String) :
    reportAt u.Validate ("Rules" :: ks) = reportAt u.Rules.Validate ks := by
  unfold UpdateRulesRequest.Validate
  rw [reportAt_Filter]
  cases requiredString u.PropertyID <;> cases requiredInt u.PropertyVersion <;>
  cases inRule [RuleValidateModeFast, RuleValidateModeFull] u.ValidateMode <;>
  cases u.Rules.Validate <;>
  simp [Errors.kept, List.lookup, reportAt_none]

/-- C7: `UpdateRulesRequest.Validate` returns an error if and only if the property id is
empty, or the property version is zero, or the validate mode is a non-empty string other than
fast and full, or the validation of the tree fails; the entry Rules of the report is the
report of the tree; and whenever it returns an error `UpdateRuleTree` returns the
struct-validation error carrying it without handing anything to the transport. -/
theorem UpdateRulesRequest.Validate_local (u : UpdateRulesRequest) :
    (u.Validate ≠ none ↔
      u.PropertyID = "" ∨ u.PropertyVersion = 0 ∨
      (u.ValidateMode ≠ "" ∧ u.ValidateMode ≠ "fast" ∧ u.ValidateMode ≠ "full") ∨
      u.Rules.Validate ≠ none) ∧
    reportAt u.Validate ["Rules"] = u.Rules.Validate ∧
    (∀ report, u.Validate = some report →
      ∀ p, UpdateRuleTree p u = ⟨[], .error (.structValidation report)⟩ ∧
        (UpdateRuleTree p u).calls = []) := by
  refine ⟨?_, ?_, ?_⟩
  · rw [Ne, UpdateRulesRequest_Validate_eq_none_iff]
    tauto
  · rw [UpdateRulesRequest.reportAt_Rules, reportAt_nil]
  · intro report h p
    rw [UpdateRuleTree_of_invalid p u report h]
    exact ⟨rfl, rfl⟩

end Papi

/-! ## The operations -/

namespace Papi

open Session

/-- C8: for valid requests, the URL `UpdateRuleTree` builds and hands to the transport is the
rules path of the property version with the contract and group parameters, followed in this
order by the validateMode parameter exactly when the mode is non-empty, by
`&validateRules=false` exactly when ValidateRules is false and by `&dryRun=true` exactly when
DryRun is true; `GetRuleTree` builds the same URL without the dryRun part. -/
theorem rule_tree_URL (g : GetRuleTreeRequest) (u : UpdateRulesRequest)
    (hg : g.Validate = none) (hu : u.Validate = none) :
    (updateRuleTreeURL u =
      "/papi/v1/properties/" ++ u.PropertyID ++ "/versions/" ++ fmtInt u.PropertyVersion ++
        "/rules?contractId=" ++ u.ContractID ++ "&groupId=" ++ u.GroupID ++
        (if u.ValidateMode = "" then "" else "&validateMode=" ++ u.ValidateMode) ++
        (if u.ValidateRules = false then "&validateRules=false" else "") ++
        (if u.DryRun = true then "&dryRun=true" else "")) ∧
    (∀ p : papi UpdateRulesResponse,
      p.transport.newRequestOK "PUT" (updateRuleTreeURL u) = true →
      (UpdateRuleTree p u).calls.map (fun c => (c.request.Method, c.request.URL)) =
        [("PUT", updateRuleTreeURL u)]) ∧
    (getRuleTreeURL g =
      "/papi/v1/properties/" ++ g.PropertyID ++ "/versions/" ++ fmtInt g.PropertyVersion ++
        "/rules?contractId=" ++ g.ContractID ++ "&groupId=" ++ g.GroupID ++
        (if g.ValidateMode = "" then "" else "&validateMode=" ++ g.ValidateMode) ++
        (if g.ValidateRules = false then "&validateRules=false" else "")) ∧
    (∀ p : papi GetRuleTreeResponse,
      p.transport.newRequestOK "GET" (getRuleTreeURL g) = true →
      (GetRuleTree p g).calls.map (fun c => (c.request.Method, c.request.URL)) =
        [("GET", getRuleTreeURL g)]) := by
  refine ⟨?_, ?_, ?_, ?_⟩
  · unfold updateRuleTreeURL
    by_cases h1 : u.ValidateMode = "" <;> cases h2 : u.ValidateRules <;>
      cases h3 : u.DryRun <;>
      simp [h1, fmtBool, String.append_assoc]
  · intro p hp
    unfold UpdateRuleTree
    simp only [hu, hp]
    cases p.transport.Exec _ with
    | error cause => simp
    | ok v =>
      obtain ⟨resp, versions⟩ := v
      by_cases hs : resp.StatusCode = 200 <;> simp [hs]
  · unfold getRuleTreeURL
    by_cases h1 : g.ValidateMode = "" <;> cases h2 : g.ValidateRules <;>
      simp [h1, fmtBool, String.append_assoc]
  · intro p hp
    unfold GetRuleTree
    simp only [hg, hp]
    cases p.transport.Exec _ with
    | error cause => simp
    | ok v =>
      obtain ⟨resp, versions⟩ := v
      by_cases hs : resp.StatusCode = 404
      · simp [hs]
      · by_cases hs2 : resp.StatusCode = 200 <;> simp [hs, hs2]

/-- Instance of C8: a dry-run submission and a fetch in fast mode, both with ValidateRules
false. -/
theorem rule_tree_URL_witness :
    (sampleGet "fast").Validate = none ∧ (sampleUpdate "fast").Validate = none ∧
    updateRuleTreeURL (sampleUpdate "fast") =
      "/papi/v1/properties/prp_1/versions/3/rules?contractId=ctr_1&groupId=grp_1" ++
        "&validateMode=fast&validateRules=false&dryRun=true" ∧
    getRuleTreeURL (sampleGet "fast") =
      "/papi/v1/properties/prp_1/versions/3/rules?contractId=ctr_1&groupId=grp_1" ++
        "&validateMode=fast&validateRules=false" :=
  ⟨rfl, rfl,
    (rule_tree_URL (sampleGet "fast") (sampleUpdate "fast") rfl rfl).1.trans (by decide),
    (rule_tree_URL (sampleGet "fast") (sampleUpdate "fast") rfl rfl).2.2.1.trans
      (by decide)⟩

/-- C9: when the request is valid and the exchange completes with a response of status `s`,
`GetRuleTree` returns the not-found error for `s = 404`, the API error built from that very
response for every other `s` outside 200..299, and the decoded value without error for
`s = 200`. -/
theorem GetRuleTree_status (p : papi GetRuleTreeResponse) (g : GetRuleTreeRequest)
    (resp : HttpResponse) (versions : GetRuleTreeResponse)
    (hg : g.Validate = none)
    (hreq : p.transport.newRequestOK "GET" (getRuleTreeURL g) = true)
    (hexec : p.transport.Exec
      ⟨⟨"GET", getRuleTreeURL g, [("PAPI-Use-Prefixes", fmtBool p.usePrefixes)]⟩, []⟩ =
        .ok (resp, versions)) :
    (resp.StatusCode = 404 →
      (GetRuleTree p g).result = .error (.notFound (getRuleTreeURL g))) ∧
    (resp.StatusCode ≠ 404 → ¬ (200 ≤ resp.StatusCode ∧ resp.StatusCode ≤ 299) →
      (GetRuleTree p g).result = .error (.api resp) ∧
      ∀ url, (GetRuleTree p g).result ≠ .error (.notFound url)) ∧
    (resp.StatusCode = 200 → (GetRuleTree p g).result = .ok versions) := by
  unfold GetRuleTree
  simp only [hg, hreq, hexec]
  refine ⟨?_, ?_, ?_⟩
  · intro hs
    simp [hs]
  · intro hs hs2
    have hs3 : resp.StatusCode ≠ 200 := by
      intro h
      apply hs2
      omega
    simp [hs, hs3]
  · intro hs
    simp [hs]

/-- Instance of C9: a transport answering 503. -/
theorem GetRuleTree_status_witness :
    (GetRuleTree (answering 503 sampleGetResponse) (sampleGet "")).result =
      .error (.api ⟨503, ""⟩) :=
  ((GetRuleTree_status (answering 503 sampleGetResponse) (sampleGet "") ⟨503, ""⟩
    sampleGetResponse rfl rfl rfl).2.1 (by decide) (by decide)).1

end Papi

namespace Appsec

open Session

theorem filterLoop_eq (params : GetContractsGroupsRequest) (vals : List ContractGroup) :
    ∀ filtered, filterLoop params filtered vals =
      filtered ++ vals.filter
        (fun val => decide (val.ContractID = params.ContractID ∧
          val.GroupID = params.GroupID)) := by
  induction vals with
  | nil => intro filtered; simp [filterLoop]
  | cons v vs ih =>
    intro filtered
    have hstep : filterLoop params filtered (v :: vs) =
        filterLoop params
          (if v.ContractID = params.ContractID ∧ v.GroupID = params.GroupID
            then filtered ++ [v] else filtered) vs := rfl
    rw [hstep, ih]
    by_cases h : v.ContractID = params.ContractID ∧ v.GroupID = params.GroupID
    · simp [h, List.filter_cons]
    · simp [h, List.filter_cons]

/-- C10: when the transport answers 200 with the list `L`, `GetContractsGroups` returns, for a
non-zero group id, exactly the entries of `L` whose contract id and group id are those of the
request, in the order of `L` and as often as they occur there; for the group id 0 it returns
`L` unchanged whatever the contract id. -/
theorem GetContractsGroups_filter (p : appsec) (params : GetContractsGroupsRequest)
    (resp : HttpResponse) (L : List ContractGroup)
    (hreq : p.transport.newRequestOK "GET" "/appsec/v1/contracts-groups" = true)
    (hexec : p.transport.Exec ⟨⟨"GET", "/appsec/v1/contracts-groups", []⟩, []⟩ =
      .ok (resp, ⟨L⟩))
    (hstatus : resp.StatusCode = 200) :
    (params.GroupID ≠ 0 →
      (GetContractsGroups p params).result =
        .ok ⟨L.filter (fun val => decide (val.ContractID = params.ContractID ∧
          val.GroupID = params.GroupID))⟩) ∧
    (params.GroupID = 0 → (GetContractsGroups p params).result = .ok ⟨L⟩) := by
  unfold GetContractsGroups
  simp only [hreq, hexec, hstatus]
  constructor
  · intro h
    simp [h, filterLoop_eq]
  · intro h
    simp [h]

/-- Instance of C10: the group 7 of contract C-1 occurs twice in the
sample list and is returned twice; with the group id 0 the contract id filters nothing. -/
theorem GetContractsGroups_filter_witness :
    (GetContractsGroups answeringGroups ⟨0, 0, "", "C-1", 7⟩).result =
      .ok ⟨[⟨"C-1", "first", 7⟩, ⟨"C-1", "first", 7⟩]⟩ ∧
    (GetContractsGroups answeringGroups ⟨0, 0, "", "C-1", 0⟩).result = .ok ⟨sampleGroups⟩ :=
  ⟨((GetContractsGroups_filter answeringGroups ⟨0, 0, "", "C-1", 7⟩ ⟨200, ""⟩ sampleGroups
      rfl rfl rfl).1 (by decide)).trans rfl,
    (GetContractsGroups_filter answeringGroups ⟨0, 0, "", "C-1", 0⟩ ⟨200, ""⟩ sampleGroups
      rfl rfl rfl).2 rfl⟩

end Appsec
